import Mathlib

/-!
Shallow embedding of the batch-validation engine of
`src/python-bindings/dhi/_native.c` (the `py_validate_batch_direct`
entry point and its supporting enum/dispatch machinery), together with
proofs of the specification's claims about it.

Modelling conventions:
* A Python scalar field value is `PyVal` (integer or string, per the
  data model: a record maps field names to integer/string scalars).
* `PyLong_AsLong` on a non-integer raises a Python exception and
  returns `-1`; the C code never checks for that error, so the model is
  the total function `pyLongAsLong` returning `-1` on a string.
* `PyUnicode_AsUTF8` on a non-string returns NULL; the model is
  `pyUnicodeAsUTF8` returning `none` (NULL) in that case.
* The external Zig primitive validators (`satya_validate_*`) are not
  part of this repository's `src/`; the integer ones are modelled from
  the spec's catalog table, and the string/format ones (whose exact
  semantics the spec declares an external library contract) are an
  abstract `Oracle` parameter, over which all theorems quantify.
* Allocation is modelled as always succeeding (the `ResourceExhausted`
  paths depend on the allocator, not on the input values).
-/

/-- A Python scalar value as the data model admits it: integer or string. -/
inductive PyVal where
  | int (n : Int)
  | str (s : String)
deriving DecidableEq

/-- A Python dict (a record): association list from field names to values.
`PyDict_GetItem` is lookup by key equality; Python dict keys are unique. -/
abbrev Record := List (String × PyVal)

/-- An element of the `items_list` argument: either a dict (a record) or a
non-dict object, whose content the engine never inspects. -/
inductive Item where
  | dict (r : Record)
  | nondict
deriving DecidableEq

/-- The record carried by an item (`[]` for a non-dict, which the engine
never evaluates: it aborts first). -/
def Item.record : Item → Record
  | .dict r => r
  | .nondict => []

/-- Whether `PyDict_Check` succeeds on the item. -/
def Item.isDict : Item → Bool
  | .dict _ => true
  | .nondict => false

/-- A value of the `field_specs_dict` argument: a tuple of size at least 1
whose first element is the rule-kind string (`tup`), or anything else —
a non-tuple or an empty tuple, both taken by the same `else` branch of
the compiler (`other`). -/
inductive SpecObj where
  | tup (kind : String) (params : List PyVal)
  | other
deriving DecidableEq

/-- `PyLong_AsLong`: identity on integers; on a string it raises a Python
`TypeError` and returns `-1`, an error the C code never checks. -/
def pyLongAsLong : PyVal → Int
  | .int n => n
  | .str _ => -1

/-- `PyUnicode_AsUTF8`: the UTF-8 buffer of a string; NULL (`none`) on a
non-string, an error the C code never checks. -/
def pyUnicodeAsUTF8 : PyVal → Option String
  | .str s => some s
  | .int _ => none

/-- The C cast `(size_t)` applied to a `long` parameter. -/
def toSizeT (n : Int) : Nat := (n % (2 : Int) ^ 64).toNat

/-- `enum ValidatorType` from the C source. -/
inductive ValidatorType where
  | VAL_INT
  | VAL_INT_GT
  | VAL_INT_GTE
  | VAL_INT_LT
  | VAL_INT_LTE
  | VAL_INT_POSITIVE
  | VAL_INT_NON_NEGATIVE
  | VAL_INT_MULTIPLE_OF
  | VAL_STRING
  | VAL_EMAIL
  | VAL_URL
  | VAL_UUID
  | VAL_IPV4
  | VAL_BASE64
  | VAL_ISO_DATE
  | VAL_ISO_DATETIME
  | VAL_UNKNOWN
deriving DecidableEq

/-- `parse_validator_type`: pure string-to-enum mapping. The C source
switches on the first character purely as a fast path; each branch is an
exact `strcmp`, so the semantics is this chain of exact comparisons, with
every unrecognized string mapping to `VAL_UNKNOWN`. -/
def parse_validator_type (type_str : String) : ValidatorType :=
  if type_str = "int" then .VAL_INT
  else if type_str = "int_gt" then .VAL_INT_GT
  else if type_str = "int_gte" then .VAL_INT_GTE
  else if type_str = "int_lt" then .VAL_INT_LT
  else if type_str = "int_lte" then .VAL_INT_LTE
  else if type_str = "int_positive" then .VAL_INT_POSITIVE
  else if type_str = "int_non_negative" then .VAL_INT_NON_NEGATIVE
  else if type_str = "int_multiple_of" then .VAL_INT_MULTIPLE_OF
  else if type_str = "ipv4" then .VAL_IPV4
  else if type_str = "iso_date" then .VAL_ISO_DATE
  else if type_str = "iso_datetime" then .VAL_ISO_DATETIME
  else if type_str = "string" then .VAL_STRING
  else if type_str = "email" then .VAL_EMAIL
  else if type_str = "url" then .VAL_URL
  else if type_str = "uuid" then .VAL_UUID
  else if type_str = "base64" then .VAL_BASE64
  else .VAL_UNKNOWN

/-- The sixteen rule-kind strings recognized by `parse_validator_type`. -/
def recognized_kinds : List String :=
  ["int", "int_gt", "int_gte", "int_lt", "int_lte", "int_positive",
   "int_non_negative", "int_multiple_of", "ipv4", "iso_date",
   "iso_datetime", "string", "email", "url", "uuid", "base64"]

/-- `struct FieldSpec` from the C source. The C struct carries the field
name twice (as a cached `PyObject*` used for the dict lookup and as a
UTF-8 pointer); both denote the same string, kept once here. -/
structure FieldSpec where
  field_name : String
  validator_type : ValidatorType
  param1 : Int
  param2 : Int
deriving DecidableEq

/-- Compilation of one `field_specs_dict` entry (the body of the
`PyDict_Next` loop): parse the kind from tuple element 0, extract
`param1` from element 1 and `param2` from element 2 when present,
defaulting to 0. A non-tuple (or empty-tuple) spec compiles to
`VAL_UNKNOWN`; the C code leaves its params uninitialized, and they are
never read (the `VAL_UNKNOWN` dispatch ignores them), so 0 here. -/
def compileFieldSpec : String × SpecObj → FieldSpec
  | (name, .tup kind params) =>
    { field_name := name
      validator_type := parse_validator_type kind
      param1 := match params with
        | [] => 0
        | p :: _ => pyLongAsLong p
      param2 := match params with
        | _ :: q :: _ => pyLongAsLong q
        | _ => 0 }
  | (name, .other) =>
    { field_name := name, validator_type := .VAL_UNKNOWN, param1 := 0, param2 := 0 }

/-- Modelled from the spec: the integer primitive validators
(`satya_validate_int` and friends) live in the external Zig library,
which is not under `src/`; their semantics follow the spec's validator
catalog table (`min ≤ value ≤ max`, comparisons against a bound,
positivity, and divisibility). -/
def satya_validate_int (value min max : Int) : Bool :=
  decide (min ≤ value) && decide (value ≤ max)

/-- Modelled from the spec: passes when `value > min`. -/
def satya_validate_int_gt (value min : Int) : Bool := decide (min < value)

/-- Modelled from the spec: passes when `value ≥ min`. -/
def satya_validate_int_gte (value min : Int) : Bool := decide (min ≤ value)

/-- Modelled from the spec: passes when `value < max`. -/
def satya_validate_int_lt (value max : Int) : Bool := decide (value < max)

/-- Modelled from the spec: passes when `value ≤ max`. -/
def satya_validate_int_lte (value max : Int) : Bool := decide (value ≤ max)

/-- Modelled from the spec: passes when `value > 0`. -/
def satya_validate_int_positive (value : Int) : Bool := decide (0 < value)

/-- Modelled from the spec: passes when `value ≥ 0`. -/
def satya_validate_int_non_negative (value : Int) : Bool := decide (0 ≤ value)

/-- Modelled from the spec: passes when `value mod divisor = 0`. -/
def satya_validate_int_multiple_of (value divisor : Int) : Bool :=
  decide (value % divisor = 0)

/-- The string/format primitive validators of the external Zig library
(string length, email, URL, UUID, IPv4, base64, ISO date, ISO datetime).
The spec declares their exact semantics an external library contract, so
they are abstract here; each receives the possibly-NULL `const char*`
(`Option String`). All theorems quantify over this structure. -/
structure Oracle where
  string_length : Option String → Nat → Nat → Bool
  email : Option String → Bool
  url : Option String → Bool
  uuid : Option String → Bool
  ipv4 : Option String → Bool
  base64 : Option String → Bool
  iso_date : Option String → Bool
  iso_datetime : Option String → Bool

/-- A concrete oracle (every format check passes), used to evaluate the
engine on closed inputs whose verdicts do not depend on format checks. -/
def Otriv : Oracle :=
  { string_length := fun _ _ _ => true
    email := fun _ => true
    url := fun _ => true
    uuid := fun _ => true
    ipv4 := fun _ => true
    base64 := fun _ => true
    iso_date := fun _ => true
    iso_datetime := fun _ => true }

/-- `PyDict_GetItem` on a record: first-match association lookup. -/
def dictGet : Record → String → Option PyVal
  | [], _ => none
  | (k, v) :: rest, key => if k = key then some v else dictGet rest key

/-- The `switch (field_specs[f].validator_type)` dispatch: coerce the
field value to what the selected primitive validator expects and call
it. Integer kinds go through `pyLongAsLong` (so a string value becomes
`-1` with an unchecked error); string kinds go through `pyUnicodeAsUTF8`
(so a non-string value becomes NULL); `VAL_UNKNOWN` always passes. -/
def dispatch (O : Oracle) (fs : FieldSpec) (field_value : PyVal) : Bool :=
  match fs.validator_type with
  | .VAL_INT => satya_validate_int (pyLongAsLong field_value) fs.param1 fs.param2
  | .VAL_INT_GT => satya_validate_int_gt (pyLongAsLong field_value) fs.param1
  | .VAL_INT_GTE => satya_validate_int_gte (pyLongAsLong field_value) fs.param1
  | .VAL_INT_LT => satya_validate_int_lt (pyLongAsLong field_value) fs.param1
  | .VAL_INT_LTE => satya_validate_int_lte (pyLongAsLong field_value) fs.param1
  | .VAL_INT_POSITIVE => satya_validate_int_positive (pyLongAsLong field_value)
  | .VAL_INT_NON_NEGATIVE => satya_validate_int_non_negative (pyLongAsLong field_value)
  | .VAL_INT_MULTIPLE_OF => satya_validate_int_multiple_of (pyLongAsLong field_value) fs.param1
  | .VAL_STRING => O.string_length (pyUnicodeAsUTF8 field_value) (toSizeT fs.param1) (toSizeT fs.param2)
  | .VAL_EMAIL => O.email (pyUnicodeAsUTF8 field_value)
  | .VAL_URL => O.url (pyUnicodeAsUTF8 field_value)
  | .VAL_UUID => O.uuid (pyUnicodeAsUTF8 field_value)
  | .VAL_IPV4 => O.ipv4 (pyUnicodeAsUTF8 field_value)
  | .VAL_BASE64 => O.base64 (pyUnicodeAsUTF8 field_value)
  | .VAL_ISO_DATE => O.iso_date (pyUnicodeAsUTF8 field_value)
  | .VAL_ISO_DATETIME => O.iso_datetime (pyUnicodeAsUTF8 field_value)
  | .VAL_UNKNOWN => true

/-- The verdict of one rule on one record, missing-field check included:
an absent field is a failure, a present one is judged by `dispatch`. -/
def rulePass (O : Oracle) (r : Record) (fs : FieldSpec) : Bool :=
  match dictGet r fs.field_name with
  | none => false
  | some v => dispatch O fs v

/-- The inner `for (f = 0; f < num_fields; f++)` loop of the evaluator on
one record: look the field up, fail-and-break when absent, dispatch when
present, fail-and-break on a failing verdict. Returns the record's
outcome together with the number of primitive-validator invocations
performed (a missing field invokes no validator). -/
def evalRules (O : Oracle) (fss : List FieldSpec) (r : Record) : Bool × Nat :=
  match fss with
  | [] => (true, 0)
  | fs :: rest =>
    match dictGet r fs.field_name with
    | none => (false, 0)
    | some v =>
      if dispatch O fs v then
        let p := evalRules O rest r
        (p.1, p.2 + 1)
      else (false, 1)

/-- The TypeError message raised on a non-dict record. -/
def dict_error_msg : String := "Expected list of dicts"

/-- The outer `for (i = 0; i < count; i++)` loop: each item must pass
`PyDict_Check` — the first non-dict aborts the whole call with a
`TypeError` and every already-computed outcome is discarded — and each
dict record is evaluated by the inner loop. -/
def runItems (O : Oracle) (fss : List FieldSpec) : List Item → Except String (List Bool)
  | [] => .ok []
  | .nondict :: _ => .error dict_error_msg
  | .dict r :: rest =>
    match runItems O fss rest with
    | .error e => .error e
    | .ok bs => .ok ((evalRules O fss r).1 :: bs)

/-- `py_validate_batch_direct`: an empty item list returns `([], 0)`
before any spec is compiled; otherwise compile every spec-dict entry,
run the item loop, and pair the outcome list with `valid_count`. The C
code initializes `valid_count = count` and decrements it exactly once
for each record whose result flips to 0 (the `results[i] == 1` guard and
the `break` make a second flip impossible), so the returned count is
`count` minus the number of false outcomes. -/
def validate_batch_direct (O : Oracle) (items : List Item)
    (field_specs_dict : List (String × SpecObj)) : Except String (List Bool × Nat) :=
  if items.length = 0 then .ok ([], 0)
  else
    let field_specs := field_specs_dict.map compileFieldSpec
    match runItems O field_specs items with
    | .error e => .error e
    | .ok results => .ok (results, items.length - results.count false)

/-- How many `FieldSpec` entries the call compiles: the `count == 0`
early return precedes the `PyDict_Next` compilation loop, so an empty
item list compiles nothing; otherwise the loop compiles one entry per
spec-dict key. -/
def compiled_rule_count (items : List Item)
    (field_specs_dict : List (String × SpecObj)) : Nat :=
  if items.length = 0 then 0 else field_specs_dict.length

/-- Modelled from the spec: the short-circuit-disabled variant of the
inner loop — every rule is evaluated for every record regardless of
prior failures, and the record passes exactly when all rules pass. -/
def evalRulesAll (O : Oracle) (fss : List FieldSpec) (r : Record) : Bool :=
  fss.foldl (fun acc fs => acc && rulePass O r fs) true

/-- Modelled from the spec: the item loop of the short-circuit-disabled
variant (identical shape, `evalRulesAll` in place of `evalRules`). -/
def runItemsAll (O : Oracle) (fss : List FieldSpec) : List Item → Except String (List Bool)
  | [] => .ok []
  | .nondict :: _ => .error dict_error_msg
  | .dict r :: rest =>
    match runItemsAll O fss rest with
    | .error e => .error e
    | .ok bs => .ok (evalRulesAll O fss r :: bs)

/-- Modelled from the spec: the whole call with short-circuiting
disabled, the comparison point of the short-circuit-equivalence claim. -/
def validate_batch_all (O : Oracle) (items : List Item)
    (field_specs_dict : List (String × SpecObj)) : Except String (List Bool × Nat) :=
  if items.length = 0 then .ok ([], 0)
  else
    let field_specs := field_specs_dict.map compileFieldSpec
    match runItemsAll O field_specs items with
    | .error e => .error e
    | .ok results => .ok (results, items.length - results.count false)

instance {ε α : Type} [DecidableEq ε] [DecidableEq α] : DecidableEq (Except ε α) := fun a b =>
  match a, b with
  | .error x, .error y =>
    if h : x = y then .isTrue (by rw [h])
    else .isFalse (fun hc => h (Except.error.inj hc))
  | .ok x, .ok y =>
    if h : x = y then .isTrue (by rw [h])
    else .isFalse (fun hc => h (Except.ok.inj hc))
  | .error _, .ok _ => .isFalse (fun hc => Except.noConfusion hc)
  | .ok _, .error _ => .isFalse (fun hc => Except.noConfusion hc)

/-! ### Shared lemmas -/

/-- The outcome component of the short-circuiting inner loop is the
conjunction of the individual rule verdicts. -/
theorem evalRules_fst (O : Oracle) (fss : List FieldSpec) (r : Record) :
    (evalRules O fss r).1 = fss.all (fun fs => rulePass O r fs) := by
  induction fss with
  | nil => rfl
  | cons fs rest ih =>
    simp only [evalRules, List.all_cons, rulePass]
    cases h : dictGet r fs.field_name with
    | none => simp
    | some v =>
      cases hd : dispatch O fs v with
      | false => simp [hd]
      | true => simpa [hd, rulePass] using ih

/-- `List.all` is invariant under permutation of the list. -/
theorem perm_all_eq {α : Type} {l₁ l₂ : List α} (p : α → Bool) (h : l₁.Perm l₂) :
    l₁.all p = l₂.all p := by
  induction h with
  | nil => rfl
  | cons x _ ih => simp only [List.all_cons, ih]
  | swap x y l =>
    simp only [List.all_cons, ← Bool.and_assoc]
    rw [Bool.and_comm (p y) (p x)]
  | trans _ _ ih₁ ih₂ => rw [ih₁, ih₂]

/-- If two compiled rule lists give every record the same outcome, the
item loop returns identical results. -/
theorem runItems_congr (O : Oracle) (fss₁ fss₂ : List FieldSpec)
    (h : ∀ r : Record, (evalRules O fss₁ r).1 = (evalRules O fss₂ r).1) :
    ∀ items : List Item, runItems O fss₁ items = runItems O fss₂ items := by
  intro items
  induction items with
  | nil => rfl
  | cons it rest ih =>
    cases it with
    | nondict => rfl
    | dict r => simp only [runItems, ih, h]

/-- A successful item loop evaluated every item as a dict record, in
order. -/
theorem runItems_ok (O : Oracle) (fss : List FieldSpec) :
    ∀ (items : List Item) (bs : List Bool), runItems O fss items = .ok bs →
      bs = items.map (fun it => (evalRules O fss it.record).1) := by
  intro items
  induction items with
  | nil => intro bs h; cases h; rfl
  | cons it rest ih =>
    intro bs h
    cases it with
    | nondict => exact absurd h (by simp [runItems])
    | dict r =>
      simp only [runItems] at h
      cases hr : runItems O fss rest with
      | error e => rw [hr] at h; cases h
      | ok tl =>
        rw [hr] at h
        cases h
        simp only [List.map_cons, Item.record]
        exact congrArg _ (ih tl hr)

/-- A non-dict anywhere in the item list aborts the loop with the
`TypeError` message. -/
theorem runItems_error_of_nondict (O : Oracle) (fss : List FieldSpec) :
    ∀ items : List Item, Item.nondict ∈ items →
      runItems O fss items = .error dict_error_msg := by
  intro items
  induction items with
  | nil => intro h; cases h
  | cons it rest ih =>
    intro h
    cases it with
    | nondict => rfl
    | dict r =>
      have hmem : Item.nondict ∈ rest := by
        cases h with
        | tail _ htl => exact htl
      simp only [runItems, ih hmem]

/-- When every item is a dict, the item loop succeeds. -/
theorem runItems_isOk_of_all_dict (O : Oracle) (fss : List FieldSpec) :
    ∀ items : List Item, (∀ it ∈ items, it.isDict = true) →
      ∃ bs, runItems O fss items = .ok bs := by
  intro items
  induction items with
  | nil => exact fun _ => ⟨[], rfl⟩
  | cons it rest ih =>
    intro h
    cases it with
    | nondict => exact absurd (h Item.nondict (List.mem_cons_self _ _)) (by simp [Item.isDict])
    | dict r =>
      obtain ⟨bs, hbs⟩ := ih (fun x hx => h x (List.mem_cons_of_mem _ hx))
      exact ⟨(evalRules O fss r).1 :: bs, by simp only [runItems, hbs]⟩

/-- With an empty compiled rule list, every dict record passes and the
loop returns all-true. -/
theorem runItems_nil_specs (O : Oracle) :
    ∀ items : List Item, (∀ it ∈ items, it.isDict = true) →
      runItems O [] items = .ok (List.replicate items.length true) := by
  intro items
  induction items with
  | nil => exact fun _ => rfl
  | cons it rest ih =>
    intro h
    cases it with
    | nondict => exact absurd (h Item.nondict (List.mem_cons_self _ _)) (by simp [Item.isDict])
    | dict r =>
      simp only [runItems, ih (fun x hx => h x (List.mem_cons_of_mem _ hx)),
        List.length_cons, List.replicate]
      rfl

/-- For a boolean list, length minus the number of `false` entries is the
number of `true` entries. -/
theorem length_sub_count_false (bs : List Bool) :
    bs.length - bs.count false = bs.count true := by
  induction bs with
  | nil => rfl
  | cons b t ih =>
    have hle : t.count false ≤ t.length := List.count_le_length _ _
    cases b <;> simp only [List.count_cons, List.length_cons] <;> simp <;> omega

/-- Folding conjunction from an initial accumulator is the accumulator
conjoined with `all`. -/
theorem foldl_and_eq_all {α : Type} (p : α → Bool) :
    ∀ (l : List α) (b : Bool), l.foldl (fun acc x => acc && p x) b = (b && l.all p) := by
  intro l
  induction l with
  | nil => intro b; simp
  | cons x t ih =>
    intro b
    simp only [List.foldl_cons, List.all_cons, ih, Bool.and_assoc]

/-- If a rule in the list references a field the record lacks, the inner
loop returns a false outcome, and the number of primitive-validator
invocations performed never exceeds the index of the first such rule
(nothing after the missing field is evaluated). -/
theorem evalRules_missing (O : Oracle) (fss : List FieldSpec) (r : Record)
    (h : ∃ fs ∈ fss, dictGet r fs.field_name = none) :
    (evalRules O fss r).1 = false ∧
      (evalRules O fss r).2 ≤ fss.findIdx (fun fs => (dictGet r fs.field_name).isNone) := by
  induction fss with
  | nil =>
    obtain ⟨fs, hmem, _⟩ := h
    cases hmem
  | cons fs rest ih =>
    cases hd : dictGet r fs.field_name with
    | none =>
      refine ⟨by simp [evalRules, hd], by simp [evalRules, hd]⟩
    | some v =>
      have hrest : ∃ f ∈ rest, dictGet r f.field_name = none := by
        obtain ⟨f, hmem, hf⟩ := h
        cases hmem with
        | head => rw [hd] at hf; cases hf
        | tail _ htl => exact ⟨f, htl, hf⟩
      have hidx : (fs :: rest).findIdx (fun f => (dictGet r f.field_name).isNone)
          = rest.findIdx (fun f => (dictGet r f.field_name).isNone) + 1 := by
        rw [List.findIdx_cons]
        simp [hd]
      obtain ⟨ih1, ih2⟩ := ih hrest
      cases hdp : dispatch O fs v with
      | false =>
        refine ⟨by simp [evalRules, hd, hdp], ?_⟩
        simp only [evalRules, hd, hdp, hidx]
        simp
      | true =>
        refine ⟨by simp [evalRules, hd, hdp, ih1], ?_⟩
        simp only [evalRules, hd, hdp, hidx, if_pos]
        simp
        omega

/-! ### Claim theorems -/

/-- C9: for every rule-spec mapping, a call with an empty record list
returns the empty outcome sequence and `validCount = 0` without error,
and the `count == 0` early return performs no per-rule compilation. -/
theorem empty_records_empty_result (O : Oracle) (sd : List (String × SpecObj)) :
    validate_batch_direct O [] sd = Except.ok ([], 0) ∧ compiled_rule_count [] sd = 0 :=
  ⟨rfl, rfl⟩

/-- C7: an input containing a non-dict record makes the whole call abort
with the `TypeError` message, returning no partial outcomes, wherever
the offending record sits. -/
theorem nondict_aborts_batch (O : Oracle) (items : List Item)
    (sd : List (String × SpecObj)) (h : Item.nondict ∈ items) :
    validate_batch_direct O items sd = Except.error dict_error_msg := by
  have hne : items.length ≠ 0 := by
    cases items with
    | nil => cases h
    | cons a t => simp
  simp only [validate_batch_direct, if_neg hne]
  rw [runItems_error_of_nondict O _ items h]

/-- Witness for C7: a batch whose second record is a non-dict aborts even
though the first record is a valid dict. -/
theorem nondict_aborts_batch_witness :
    Item.nondict ∈ [Item.dict [("a", PyVal.int 1)], Item.nondict] ∧
    validate_batch_direct Otriv [Item.dict [("a", PyVal.int 1)], Item.nondict]
      [("a", SpecObj.tup "int" [PyVal.int 0, PyVal.int 5])] = Except.error dict_error_msg :=
  ⟨by decide,
    nondict_aborts_batch Otriv [Item.dict [("a", PyVal.int 1)], Item.nondict]
      [("a", SpecObj.tup "int" [PyVal.int 0, PyVal.int 5])] (by decide)⟩

/-- C10: a non-empty batch of dict records validated against an empty
rule-spec mapping succeeds, every outcome is true, and `validCount`
equals the number of records. -/
theorem empty_specs_all_valid (O : Oracle) (items : List Item)
    (h1 : items ≠ []) (h2 : ∀ it ∈ items, it.isDict = true) :
    validate_batch_direct O items [] =
      Except.ok (List.replicate items.length true, items.length) := by
  have hne : items.length ≠ 0 := fun hl => h1 (List.length_eq_zero.mp hl)
  simp only [validate_batch_direct, if_neg hne, List.map_nil]
  rw [runItems_nil_specs O items h2]
  have hc : (List.replicate items.length true).count false = 0 := by
    rw [List.count_replicate]
    simp
  simp [hc]

/-- Witness for C10: two dict records and no rules give `([true, true], 2)`. -/
theorem empty_specs_all_valid_witness :
    ([Item.dict [("a", PyVal.int 1)], Item.dict []] ≠ ([] : List Item)) ∧
    (∀ it ∈ [Item.dict [("a", PyVal.int 1)], Item.dict []], it.isDict = true) ∧
    validate_batch_direct Otriv [Item.dict [("a", PyVal.int 1)], Item.dict []] [] =
      Except.ok (List.replicate ([Item.dict [("a", PyVal.int 1)], Item.dict []] : List Item).length true,
        ([Item.dict [("a", PyVal.int 1)], Item.dict []] : List Item).length) :=
  ⟨by decide, by decide,
    empty_specs_all_valid Otriv [Item.dict [("a", PyVal.int 1)], Item.dict []]
      (by decide) (by decide)⟩

/-- C6: the short-circuiting evaluator and the variant that runs every
rule for every record return identical outcomes and valid counts on
every input. -/
theorem short_circuit_equivalence (O : Oracle) (items : List Item)
    (sd : List (String × SpecObj)) :
    validate_batch_direct O items sd = validate_batch_all O items sd := by
  have hrec : ∀ r : Record, (evalRules O (sd.map compileFieldSpec) r).1
      = evalRulesAll O (sd.map compileFieldSpec) r := by
    intro r
    rw [evalRules_fst, evalRulesAll, foldl_and_eq_all, Bool.true_and]
  have hruns : ∀ its : List Item, runItems O (sd.map compileFieldSpec) its
      = runItemsAll O (sd.map compileFieldSpec) its := by
    intro its
    induction its with
    | nil => rfl
    | cons it rest ih =>
      cases it with
      | nondict => rfl
      | dict r => simp only [runItems, runItemsAll, ih, hrec]
  simp only [validate_batch_direct, validate_batch_all, hruns]

/-- C1: whenever the call returns a result, `validCount` is exactly the
number of true outcomes, and the outcome list matches the record list in
length and order (the outcome at every index is the evaluation of the
record at that index). -/
theorem valid_count_consistency (O : Oracle) (items : List Item)
    (sd : List (String × SpecObj)) (outs : List Bool) (vc : Nat) (i : Nat)
    (hok : validate_batch_direct O items sd = Except.ok (outs, vc)) :
    vc = outs.count true ∧ outs.length = items.length ∧
      outs[i]? = (items[i]?).map
        (fun it => (evalRules O (sd.map compileFieldSpec) it.record).1) := by
  by_cases hne : items.length = 0
  · have hnil : items = [] := List.length_eq_zero.mp hne
    subst hnil
    simp only [validate_batch_direct, if_pos rfl] at hok
    have hok2 := Except.ok.inj hok
    rw [Prod.mk.injEq] at hok2
    obtain ⟨h1, h2⟩ := hok2
    subst h1
    subst h2
    simp
  · simp only [validate_batch_direct, if_neg hne] at hok
    cases hr : runItems O (sd.map compileFieldSpec) items with
    | error e => rw [hr] at hok; cases hok
    | ok bs =>
      rw [hr] at hok
      have hok2 := Except.ok.inj hok
      rw [Prod.mk.injEq] at hok2
      obtain ⟨h1, h2⟩ := hok2
      subst h1
      subst h2
      have hmap := runItems_ok O (sd.map compileFieldSpec) items bs hr
      subst hmap
      refine ⟨?_, List.length_map _ _, List.getElem?_map _ _ _⟩
      rw [show items.length
          = (items.map (fun it => (evalRules O (sd.map compileFieldSpec) it.record).1)).length
          from (List.length_map _ _).symm]
      exact length_sub_count_false _

/-- Records and rules of the spec's Example 1. -/
def exItems1 : List Item :=
  [Item.dict [("age", PyVal.int 25)], Item.dict [("age", PyVal.int (-1))]]

/-- Rule specs of the spec's Example 1. -/
def exSpecs1 : List (String × SpecObj) :=
  [("age", SpecObj.tup "int_non_negative" [])]

/-- Witness for C1: Example 1 of the spec returns `([true, false], 1)`,
whose valid count, length, and per-index outcomes satisfy the claim. -/
theorem valid_count_consistency_witness :
    validate_batch_direct Otriv exItems1 exSpecs1 = Except.ok ([true, false], 1) ∧
    (1 = [true, false].count true ∧ [true, false].length = exItems1.length ∧
      [true, false][0]? = (exItems1[0]?).map
        (fun it => (evalRules Otriv (exSpecs1.map compileFieldSpec) it.record).1)) :=
  ⟨by decide, valid_count_consistency Otriv exItems1 exSpecs1 [true, false] 1 0 (by decide)⟩

/-- C3: a record lacking a field referenced by some compiled rule gets a
false outcome regardless of its other rules, and evaluation of that
record stops at the missing field: the number of validator invocations
never exceeds the index of the first rule whose field is missing. -/
theorem missing_field_strictness (O : Oracle) (sd : List (String × SpecObj)) (r : Record)
    (h : ∃ fs ∈ List.map compileFieldSpec sd, dictGet r fs.field_name = none) :
    (evalRules O (List.map compileFieldSpec sd) r).1 = false ∧
      (evalRules O (List.map compileFieldSpec sd) r).2 ≤
        (List.map compileFieldSpec sd).findIdx
          (fun fs => (dictGet r fs.field_name).isNone) :=
  evalRules_missing O (List.map compileFieldSpec sd) r h

/-- Record for the C3 witness: has `name` but lacks `age`. -/
def mfsRec : Record := [("name", PyVal.str "bob")]

/-- Rule specs for the C3 witness: a passing rule on `name` before a rule
on the absent `age`. -/
def mfsSpecs : List (String × SpecObj) :=
  [("name", SpecObj.tup "string" [PyVal.int 1, PyVal.int 50]),
   ("age", SpecObj.tup "int" [PyVal.int 0, PyVal.int 10])]

/-- Witness for C3: the record lacking `age` fails with at most one
validator invocation. -/
theorem missing_field_strictness_witness :
    (∃ fs ∈ List.map compileFieldSpec mfsSpecs, dictGet mfsRec fs.field_name = none) ∧
    ((evalRules Otriv (List.map compileFieldSpec mfsSpecs) mfsRec).1 = false ∧
      (evalRules Otriv (List.map compileFieldSpec mfsSpecs) mfsRec).2 ≤
        (List.map compileFieldSpec mfsSpecs).findIdx
          (fun fs => (dictGet mfsRec fs.field_name).isNone)) :=
  ⟨by decide, missing_field_strictness Otriv mfsSpecs mfsRec (by decide)⟩

/-- C5: permuting the rule-spec entries (hence the compiled rule list's
iteration order) never changes the call's result — outcomes, valid
count, or error — and each record's final pass/fail is the conjunction
of all its rules' verdicts. -/
theorem rule_order_invariance (O : Oracle) (items : List Item)
    (sd₁ sd₂ : List (String × SpecObj)) (r : Record) (h : sd₁.Perm sd₂) :
    validate_batch_direct O items sd₁ = validate_batch_direct O items sd₂ ∧
      (evalRules O (sd₁.map compileFieldSpec) r).1
        = (sd₁.map compileFieldSpec).all (fun fs => rulePass O r fs) := by
  have hperm : (sd₁.map compileFieldSpec).Perm (sd₂.map compileFieldSpec) :=
    h.map compileFieldSpec
  have hrec : ∀ rr : Record, (evalRules O (sd₁.map compileFieldSpec) rr).1
      = (evalRules O (sd₂.map compileFieldSpec) rr).1 := by
    intro rr
    rw [evalRules_fst, evalRules_fst]
    exact perm_all_eq (fun fs => rulePass O rr fs) hperm
  refine ⟨?_, evalRules_fst O (sd₁.map compileFieldSpec) r⟩
  simp only [validate_batch_direct, runItems_congr O (sd₁.map compileFieldSpec)
    (sd₂.map compileFieldSpec) hrec items]

/-- Items for the C5 witness. -/
def permItems : List Item := [Item.dict [("a", PyVal.int 3), ("b", PyVal.str "xy")]]

/-- Record for the C5 witness. -/
def permRec : Record := [("a", PyVal.int 3), ("b", PyVal.str "xy")]

/-- Rule specs for the C5 witness, one order. -/
def permSpecs1 : List (String × SpecObj) :=
  [("a", SpecObj.tup "int_gte" [PyVal.int 0]),
   ("b", SpecObj.tup "string" [PyVal.int 1, PyVal.int 5])]

/-- Rule specs for the C5 witness, the swapped order. -/
def permSpecs2 : List (String × SpecObj) :=
  [("b", SpecObj.tup "string" [PyVal.int 1, PyVal.int 5]),
   ("a", SpecObj.tup "int_gte" [PyVal.int 0])]

/-- Witness for C5: swapping two rules leaves the result unchanged. -/
theorem rule_order_invariance_witness :
    permSpecs1.Perm permSpecs2 ∧
    (validate_batch_direct Otriv permItems permSpecs1
        = validate_batch_direct Otriv permItems permSpecs2 ∧
      (evalRules Otriv (permSpecs1.map compileFieldSpec) permRec).1
        = (permSpecs1.map compileFieldSpec).all (fun fs => rulePass Otriv permRec fs)) :=
  ⟨by decide, rule_order_invariance Otriv permItems permSpecs1 permSpecs2 permRec (by decide)⟩

/-- C8: rule parameters are extracted positionally — the first extra
tuple value becomes `param1`, the second `param2` — missing parameters
default to 0, and the evaluator consumes exactly those defaulted
parameters (a one-parameter `int` rule is validated with `max = 0`). -/
theorem params_positional_defaults (n k : String) (p q : Int) (ps : List PyVal)
    (O : Oracle) (v : Int) :
    (compileFieldSpec (n, SpecObj.tup k [])).param1 = 0 ∧
    (compileFieldSpec (n, SpecObj.tup k [])).param2 = 0 ∧
    (compileFieldSpec (n, SpecObj.tup k [PyVal.int p])).param1 = p ∧
    (compileFieldSpec (n, SpecObj.tup k [PyVal.int p])).param2 = 0 ∧
    (compileFieldSpec (n, SpecObj.tup k (PyVal.int p :: PyVal.int q :: ps))).param1 = p ∧
    (compileFieldSpec (n, SpecObj.tup k (PyVal.int p :: PyVal.int q :: ps))).param2 = q ∧
    validate_batch_direct O [Item.dict [(n, PyVal.int v)]] [(n, SpecObj.tup "int" [PyVal.int p])]
      = Except.ok ([satya_validate_int v p 0], if satya_validate_int v p 0 then 1 else 0) := by
  refine ⟨rfl, rfl, rfl, rfl, rfl, rfl, ?_⟩
  have hfs : compileFieldSpec (n, SpecObj.tup "int" [PyVal.int p])
      = ⟨n, ValidatorType.VAL_INT, p, 0⟩ := rfl
  cases hb : satya_validate_int v p 0 with
  | false =>
    simp [validate_batch_direct, hfs, runItems, evalRules, dictGet, dispatch,
      pyLongAsLong, hb]
  | true =>
    simp [validate_batch_direct, hfs, runItems, evalRules, dictGet, dispatch,
      pyLongAsLong, hb]

/-- Counterexample to C2 as stated: the string value `"hello"` has the
wrong shape for the `int` rule with bounds `[-5, 5]`, yet the record's
outcome is true, not false — `PyLong_AsLong`'s unchecked error value
`-1` lies inside the bounds. -/
theorem type_mismatch_cex :
    validate_batch_direct Otriv [Item.dict [("age", PyVal.str "hello")]]
      [("age", SpecObj.tup "int" [PyVal.int (-5), PyVal.int 5])] = Except.ok ([true], 1) ∧
    validate_batch_direct Otriv [Item.dict [("age", PyVal.str "hello")]]
      [("age", SpecObj.tup "int" [PyVal.int (-5), PyVal.int 5])] ≠ Except.ok ([false], 0) :=
  ⟨by decide, by decide⟩

/-- C2 (amended): a field value of the wrong shape for an integer rule
does not abort the call (every all-dict batch still returns a complete
result), but it is not automatically a failure either: the value is
coerced to the error sentinel `-1` and the rule behaves exactly as it
would on the integer `-1`, so the record's outcome follows the
validator's verdict on `-1`. -/
theorem type_mismatch_coerced (O : Oracle) (fs : FieldSpec) (s : String)
    (items : List Item) (sd : List (String × SpecObj))
    (hint : fs.validator_type ∈ [ValidatorType.VAL_INT, ValidatorType.VAL_INT_GT,
      ValidatorType.VAL_INT_GTE, ValidatorType.VAL_INT_LT, ValidatorType.VAL_INT_LTE,
      ValidatorType.VAL_INT_POSITIVE, ValidatorType.VAL_INT_NON_NEGATIVE,
      ValidatorType.VAL_INT_MULTIPLE_OF])
    (hnd : Item.nondict ∉ items) :
    dispatch O fs (PyVal.str s) = dispatch O fs (PyVal.int (-1)) ∧
      (validate_batch_direct O items sd).isOk = true := by
  constructor
  · simp only [List.mem_cons, List.not_mem_nil, or_false] at hint
    rcases hint with h | h | h | h | h | h | h | h <;>
      simp [dispatch, h, pyLongAsLong]
  · by_cases hlen : items.length = 0
    · simp [validate_batch_direct, hlen, Except.isOk, Except.toBool]
    · have hall : ∀ it ∈ items, it.isDict = true := by
        intro it hit
        cases it with
        | dict r => rfl
        | nondict => exact absurd hit hnd
      obtain ⟨bs, hbs⟩ := runItems_isOk_of_all_dict O (sd.map compileFieldSpec) items hall
      simp [validate_batch_direct, hlen, hbs, Except.isOk, Except.toBool]

/-- Witness for C2 (amended): a string value under an `int_positive`
rule is judged as `-1` (so it fails that rule), and the call completes. -/
theorem type_mismatch_coerced_witness :
    ((compileFieldSpec ("age", SpecObj.tup "int_positive" [])).validator_type ∈
      [ValidatorType.VAL_INT, ValidatorType.VAL_INT_GT,
        ValidatorType.VAL_INT_GTE, ValidatorType.VAL_INT_LT, ValidatorType.VAL_INT_LTE,
        ValidatorType.VAL_INT_POSITIVE, ValidatorType.VAL_INT_NON_NEGATIVE,
        ValidatorType.VAL_INT_MULTIPLE_OF]) ∧
    (Item.nondict ∉ [Item.dict [("age", PyVal.str "x")]]) ∧
    (dispatch Otriv (compileFieldSpec ("age", SpecObj.tup "int_positive" [])) (PyVal.str "x")
        = dispatch Otriv (compileFieldSpec ("age", SpecObj.tup "int_positive" [])) (PyVal.int (-1)) ∧
      (validate_batch_direct Otriv [Item.dict [("age", PyVal.str "x")]]
        [("age", SpecObj.tup "int_positive" [])]).isOk = true) :=
  ⟨by decide, by decide,
    type_mismatch_coerced Otriv (compileFieldSpec ("age", SpecObj.tup "int_positive" []))
      "x" [Item.dict [("age", PyVal.str "x")]] [("age", SpecObj.tup "int_positive" [])]
      (by decide) (by decide)⟩

/-- Counterexample to C4 as stated: the unrecognized kind `"bogus"` on
field `x` still requires `x` to be present — on a record lacking `x`
the rule's presence alone flips the outcome from true to false, because
the missing-field check precedes the dispatch that would always pass. -/
theorem unknown_kind_cex :
    validate_batch_direct Otriv [Item.dict []] [("x", SpecObj.tup "bogus" [])]
      = Except.ok ([false], 0) ∧
    validate_batch_direct Otriv [Item.dict []] [] = Except.ok ([true], 1) :=
  ⟨by decide, by decide⟩

/-- C4 (amended): a rule descriptor whose kind name is not one of the
sixteen recognized catalog strings compiles to `VAL_UNKNOWN`, its
dispatch always passes, and on any record that contains its field its
presence never changes the record's outcome; only the missing-field
check (which precedes dispatch) can make such a rule fail a record. -/
theorem unknown_kind_leniency (O : Oracle) (s : String) (fs : FieldSpec)
    (v : PyVal) (pre post : List FieldSpec) (r : Record)
    (hs : s ∉ recognized_kinds)
    (hfs : fs.validator_type = ValidatorType.VAL_UNKNOWN)
    (hpresent : (dictGet r fs.field_name).isSome = true) :
    parse_validator_type s = ValidatorType.VAL_UNKNOWN ∧
      dispatch O fs v = true ∧
      (evalRules O (pre ++ fs :: post) r).1 = (evalRules O (pre ++ post) r).1 := by
  refine ⟨?_, ?_, ?_⟩
  · simp only [recognized_kinds, List.mem_cons, List.not_mem_nil, or_false, not_or] at hs
    obtain ⟨h1, h2, h3, h4, h5, h6, h7, h8, h9, h10, h11, h12, h13, h14, h15, h16⟩ := hs
    simp only [parse_validator_type, h1, h2, h3, h4, h5, h6, h7, h8, h9, h10, h11, h12,
      h13, h14, h15, h16, if_false]
  · simp [dispatch, hfs]
  · rw [evalRules_fst, evalRules_fst, List.all_append, List.all_append, List.all_cons]
    have hpass : rulePass O r fs = true := by
      cases hv : dictGet r fs.field_name with
      | none => rw [hv] at hpresent; simp at hpresent
      | some w => simp [rulePass, hv, dispatch, hfs]
    rw [hpass, Bool.true_and]

/-- Witness for C4 (amended): `"bogus"` compiles to `VAL_UNKNOWN`, always
passes, and inserting it before an `int_positive` rule on a record that
has the field leaves the outcome unchanged. -/
theorem unknown_kind_leniency_witness :
    ("bogus" ∉ recognized_kinds) ∧
    ((compileFieldSpec ("x", SpecObj.tup "bogus" [])).validator_type
      = ValidatorType.VAL_UNKNOWN) ∧
    ((dictGet [("x", PyVal.int 3)]
      (compileFieldSpec ("x", SpecObj.tup "bogus" [])).field_name).isSome = true) ∧
    (parse_validator_type "bogus" = ValidatorType.VAL_UNKNOWN ∧
      dispatch Otriv (compileFieldSpec ("x", SpecObj.tup "bogus" [])) (PyVal.int 7) = true ∧
      (evalRules Otriv ([] ++ compileFieldSpec ("x", SpecObj.tup "bogus" [])
          :: [compileFieldSpec ("x", SpecObj.tup "int_positive" [])]) [("x", PyVal.int 3)]).1
        = (evalRules Otriv ([] ++ [compileFieldSpec ("x", SpecObj.tup "int_positive" [])])
            [("x", PyVal.int 3)]).1) :=
  ⟨by decide, by decide, by decide,
    unknown_kind_leniency Otriv "bogus" (compileFieldSpec ("x", SpecObj.tup "bogus" []))
      (PyVal.int 7) [] [compileFieldSpec ("x", SpecObj.tup "int_positive" [])]
      [("x", PyVal.int 3)] (by decide) (by decide) (by decide)⟩
